import Mathlib

/-! Shallow embedding of the chromatogram_analyzer repository
(src/chromatogram.py, src/peak.py, src/utils.py, src/main.py).

Modelling conventions: Python floats are modelled as exact rationals (ℚ),
NumPy arrays as lists, Python exceptions as an `Except PyError` result, and
Python strings as `List Char` where the parsing code manipulates them.
External library calls (scipy.signal.find_peaks, scipy.integrate.simpson,
python-slugify) are not part of the repository sources; their behaviour is
modelled from the specification, and each such definition carries a doc
comment saying so. Everything else is translated directly from the named
source lines. -/

namespace Chrom

/-- Python runtime errors that the embedded code can surface. -/
inductive PyError where
  | typeError
  | attributeError
  | valueError (msg : String)
  | indexError
  | fileNotFound
deriving DecidableEq, Repr

deriving instance DecidableEq for Except

/-- Python built-in `round` on an exact rational: round half to even
(banker's rounding), as Python does on floats. -/
def pyRound (q : ℚ) : ℤ :=
  if q - (⌊q⌋ : ℚ) < 1/2 then ⌊q⌋
  else if 1/2 < q - (⌊q⌋ : ℚ) then ⌊q⌋ + 1
  else if ⌊q⌋ % 2 = 0 then ⌊q⌋ else ⌊q⌋ + 1

/-- Minimum of a list of rationals; `np.min` of a nonempty array
(src/utils.py line 80). The empty-list default 0 is never used by the code,
which only calls this on parsed data columns. -/
def listMin : List ℚ → ℚ
  | [] => 0
  | x :: xs => xs.foldl min x

/-- src/utils.py lines 70-81: `normalize(values)` builds a fresh array whose
entries are `value - np.min(values)`. -/
def normalize (values : List ℚ) : List ℚ :=
  values.map (fun value => value - listMin values)

/-- Simpson pair rule on one pair of (possibly non-uniform) intervals
`[x0,x1]` and `[x1,x2]`, the exact integral of the quadratic through the
three sample points. For uniform spacing h it reduces to
`h / 3 * (y0 + 4 * y1 + y2)`. -/
def simpsonPairArea (x0 y0 x1 y1 x2 y2 : ℚ) : ℚ :=
  let h0 := x1 - x0
  let h1 := x2 - x1
  (h0 + h1) / 6 * (y0 * (2 - h1 / h0) + y1 * ((h0 + h1)^2 / (h0 * h1)) + y2 * (2 - h0 / h1))

/-- Modelled from the spec: scipy.integrate.simpson (external library, not in
src/). Composite Simpson rule over successive interval pairs; with an even
number of samples the final single interval is handled by a trapezoid
correction, as section 4.3 of the spec allows. The fuel argument (instantiated
with the list length) only makes the recursion structural. -/
def simpsonAux : Nat → List ℚ → List ℚ → ℚ
  | fuel+1, x0 :: x1 :: x2 :: xs, y0 :: y1 :: y2 :: ys =>
      simpsonPairArea x0 y0 x1 y1 x2 y2 + simpsonAux fuel (x2 :: xs) (y2 :: ys)
  | _, [x0, x1], [y0, y1] => (x1 - x0) * (y0 + y1) / 2
  | _, _, _ => 0

/-- Modelled from the spec: scipy.integrate.simpson on sample points `x`, `y`. -/
def simpson (x y : List ℚ) : ℚ := simpsonAux x.length x y

/-- src/utils.py lines 7-31: `integrate(x_data, y_data, method)`. The Python
`match` statement returns the Simpson area for method `simpson` and raises
`ValueError(f"Unsupported integration method: {method}")` for anything else. -/
def integrate (x_data y_data : List ℚ) (method : String) : Except PyError ℚ :=
  if method = "simpson" then Except.ok (simpson x_data y_data)
  else Except.error (PyError.valueError ("Unsupported integration method: " ++ method))

/-! ### Python string primitives, modelled over `List Char` -/

/-- Whitespace characters removed by Python `str.strip()` (the ones that can
occur in this text format). -/
def isWS (c : Char) : Bool :=
  c == ' ' || c == '\t' || c == '\n' || c == '\r' || c == '\x0b' || c == '\x0c'

/-- Python `str.strip()`: drop whitespace from both ends. -/
def trimChars (s : List Char) : List Char :=
  ((s.dropWhile isWS).reverse.dropWhile isWS).reverse

/-- Python `str.split(sep)` for a one-character separator: keeps empty
fields, and the split of the empty string is `[""]`. -/
def splitOnChar (sep : Char) : List Char → List (List Char)
  | [] => [[]]
  | c :: cs =>
    let r := splitOnChar sep cs
    if c == sep then [] :: r
    else
      match r with
      | h :: t => (c :: h) :: t
      | [] => [[c]]

/-- Does the pattern occur at the head of the list? -/
def listStartsWith : List Char → List Char → Bool
  | [], _ => true
  | _ :: _, [] => false
  | p :: ps, c :: cs => p == c && listStartsWith ps cs

/-- Python `str.replace(pat, rep)`: replace every non-overlapping occurrence
of `pat`, scanning left to right. The fuel argument (instantiated with the
string length, enough because every step consumes at least one character)
only makes the recursion structural. -/
def replList (pat rep : List Char) : Nat → List Char → List Char
  | _, [] => []
  | 0, s => s
  | fuel+1, c :: cs =>
    if listStartsWith pat (c :: cs) then rep ++ replList pat rep fuel ((c :: cs).drop pat.length)
    else c :: replList pat rep fuel cs

/-- The sentinel substring `n.a.` (src/chromatogram.py line 65). -/
def naPat : List Char := ['n', '.', 'a', '.']

/-- The replacement string `0.0` (src/chromatogram.py line 65). -/
def zeroRep : List Char := ['0', '.', '0']

/-- Value of a digit string, most significant first. -/
def digitsVal (cs : List Char) : Nat :=
  cs.foldl (fun n c => n * 10 + (c.toNat - 48)) 0

/-- Optional leading sign: returns (isNegative, rest). -/
def parseSign : List Char → (Bool × List Char)
  | '-' :: cs => (true, cs)
  | '+' :: cs => (false, cs)
  | cs => (false, cs)

/-- Split at the first exponent marker `e`/`E`, if any. -/
def splitAtE : List Char → (List Char × Option (List Char))
  | [] => ([], none)
  | c :: cs =>
    if c == 'e' || c == 'E' then ([], some cs)
    else
      match splitAtE cs with
      | (m, r) => (c :: m, r)

/-- Unsigned decimal mantissa: `digits`, `digits.digits`, `digits.` or
`.digits`; at least one digit overall. -/
def parseUnsignedDec (cs : List Char) : Option ℚ :=
  match splitOnChar '.' cs with
  | [ip] =>
    if !ip.isEmpty && ip.all Char.isDigit then some (digitsVal ip) else none
  | [ip, fp] =>
    if !(ip ++ fp).isEmpty && ip.all Char.isDigit && fp.all Char.isDigit then
      some ((digitsVal ip : ℚ) + (digitsVal fp : ℚ) / (10 ^ fp.length))
    else none
  | _ => none

/-- Modelled from the spec: the Python built-in `float(str)` (external to the
repository sources) on finite decimal literals: optional surrounding
whitespace, optional sign, decimal mantissa with optional fraction part, and
an optional signed decimal exponent. The special values inf and nan and
digit-group underscores have no counterpart in ℚ and do not occur in
well-formed chromatogram data; every other failure returns `none`, the
embedding of `ValueError`. -/
def pyFloat? (s : List Char) : Option ℚ :=
  let t := trimChars s
  let (neg, rest) := parseSign t
  let (mant, exPart) := splitAtE rest
  match parseUnsignedDec mant with
  | none => none
  | some m =>
    let sgn : ℚ := if neg then -1 else 1
    match exPart with
    | none => some (sgn * m)
    | some ecs =>
      let (eneg, ed) := parseSign ecs
      if !ed.isEmpty && ed.all Char.isDigit then
        some (sgn * m * (if eneg then 1 / 10 ^ digitsVal ed else 10 ^ digitsVal ed))
      else none

/-! ### src/chromatogram.py: data-table parsing -/

/-- src/chromatogram.py lines 60-71, the body of the row loop given the
tab-split columns of one line: a row is kept only when it has exactly 3
columns and, after replacing `n.a.` by `0.0` in the step column only, all
three columns convert to float; every failure skips the row (`none`). The
kept tuple is `(time, step, value)`. -/
def parseColumns (columns : List (List Char)) : Option (ℚ × ℚ × ℚ) :=
  match columns with
  | [time, step, value] =>
    match pyFloat? (replList naPat zeroRep step.length step), pyFloat? time, pyFloat? value with
    | some s, some t, some v => some (t, s, v)
    | _, _, _ => none
  | _ => none

/-- One line of the data table: split on tabs, then `parseColumns`. -/
def parseRowLine (line : List Char) : Option (ℚ × ℚ × ℚ) :=
  parseColumns (splitOnChar '\t' line)

/-- src/chromatogram.py lines 45-76, `parse_chromatogram_data`: strip the
content, split into lines, skip the header line, keep exactly the rows that
parse; malformed rows are skipped (logged in the source), never fatal. -/
def parse_chromatogram_data (content : List Char) : List (ℚ × ℚ × ℚ) :=
  ((splitOnChar '\n' (trimChars content)).drop 1).filterMap parseRowLine

/-! ### src/utils.py: metadata helpers, and src/chromatogram.py: `__init__` -/

/-- Lowercase letters and digits, the characters a slug keeps. -/
def isAlnumLower (c : Char) : Bool := c.isDigit || ('a' ≤ c && c ≤ 'z')

/-- Modelled from the spec: `slugify` from python-slugify (external library)
as used by `slugify_key` (src/utils.py lines 57-68) with separator `_`: the
key is lowercased and every maximal run of non-alphanumeric characters
becomes a single separator, with no leading or trailing separator. -/
def slugify_key (text : List Char) : List Char :=
  let lower := text.map Char.toLower
  let words := (splitOnChar ' ' (lower.map (fun c => if isAlnumLower c then c else ' '))).filter
    (fun w => !w.isEmpty)
  List.intercalate ['_'] words

/-- Python dict assignment `d[k] = v`: overwrite in place, else append;
insertion order is preserved. -/
def dictSet (d : List (List Char × Option (List Char))) (k : List Char)
    (v : Option (List Char)) : List (List Char × Option (List Char)) :=
  if d.any (fun kv => kv.1 == k) then d.map (fun kv => if kv.1 == k then (k, v) else kv)
  else d ++ [(k, v)]

/-- src/utils.py lines 33-55, `parse_key_value_pairs`: split into lines; a
line with one tab is a key-value pair, a line with no tab is a key with value
None, anything else is reported and skipped. Keys are slugified. -/
def parse_key_value_pairs (content : List Char) : List (List Char × Option (List Char)) :=
  (splitOnChar '\n' content).foldl
    (fun d line =>
      match splitOnChar '\t' line with
      | [k, v] => dictSet d (slugify_key k) (some v)
      | [k] => dictSet d (slugify_key k) none
      | _ => d)
    []

/-- A section-title line for the pattern `^(.+?:)\n` of src/chromatogram.py
line 30: a line of at least two characters whose last character is a colon
(the non-greedy group needs at least one character before the colon). Only
lines followed by a newline can match, which the splitter checks. -/
def isTitleLine (line : List Char) : Bool :=
  decide (2 ≤ line.length) && line.getLast? == some ':'

/-- Rejoin body lines with the newlines the line split removed. -/
def joinLines (ls : List (List Char)) : List Char :=
  List.intercalate ['\n'] ls

/-- Worker for `reSplitSections`: walks the lines, emitting the chunk
gathered so far (with its trailing newline, which the regex leaves in the
preceding chunk) and the captured title line at each delimiter. -/
def reSplitAux : List (List Char) → List (List Char) → List (List Char)
  | buf, [] => [joinLines buf.reverse]
  | buf, l :: rest =>
    if !rest.isEmpty && isTitleLine l then
      (if buf.isEmpty then [] else joinLines buf.reverse ++ ['\n']) :: l :: reSplitAux [] rest
    else reSplitAux (l :: buf) rest

/-- src/chromatogram.py line 30: `re.split(r'^(.+?:)\n', content, MULTILINE)`.
A line ending in a colon and followed by a newline is a delimiter; the split
keeps the captured title lines, so sections 0, 2, 4, 6, 8 are bodies. -/
def reSplitSections (content : List Char) : List (List Char) :=
  reSplitAux [] (splitOnChar '\n' content)

/-- The metadata dictionary built at src/chromatogram.py lines 32-37. -/
structure Metadata where
  top : List (List Char × Option (List Char))
  injection_info : List (List Char × Option (List Char))
  chromatogram_data_info : List (List Char × Option (List Char))
  signal_parameter_info : List (List Char × Option (List Char))
deriving DecidableEq, Repr

/-- The object state `ChromatogramRun.__init__` leaves behind: `none` fields
model instance attributes that were never assigned. -/
structure InitRunObj where
  metadata : Option Metadata
  data : Option (List (ℚ × ℚ × ℚ))
deriving DecidableEq, Repr

/-- src/chromatogram.py lines 25-43, `ChromatogramRun.__init__`. The file
argument is `none` when opening raises FileNotFoundError: that exception is
caught, a message is printed, and the constructor returns normally, so the
caller receives an object whose `metadata` and `data` attributes were never
assigned. With readable content the sections are split and parsed; a file
with fewer than 9 sections raises an uncaught IndexError at the subscripts
on lines 33-39. -/
def chromatogram_run_init (file : Option (List Char)) : Except PyError InitRunObj :=
  match file with
  | none => Except.ok { metadata := none, data := none }
  | some content =>
    let sections := reSplitSections content
    if 8 < sections.length then
      Except.ok
        { metadata := some
            { top := parse_key_value_pairs (trimChars (sections.getD 0 []))
              injection_info := parse_key_value_pairs (trimChars (sections.getD 2 []))
              chromatogram_data_info := parse_key_value_pairs (trimChars (sections.getD 4 []))
              signal_parameter_info := parse_key_value_pairs (trimChars (sections.getD 6 [])) }
          data := some (parse_chromatogram_data (trimChars (sections.getD 8 []))) }
    else Except.error PyError.indexError

/-! ### src/chromatogram.py: the `ChromatogramRun` class and peak detection -/

/-- The state of a `ChromatogramRun` object: the class-level default
parameters (src/chromatogram.py lines 12-19) plus the parsed data table.
`find_peaks` shadows `NORMALIZE` on the instance, modelled as updating the
field. -/
structure ChromatogramRun where
  DISTANCE : Nat := 75
  MIN_HEIGHT : ℚ := 15/100
  MIN_WIDTH : Nat := 10
  MAX_WIDTH : Nat := 1000
  RELATIVE_HEIGHT : ℚ := 95/100
  NORMALIZE : Bool := false
  data : List (ℚ × ℚ × ℚ) := []
deriving DecidableEq, Repr

/-- src/chromatogram.py lines 141-146: the `x` property, the time column. -/
def ChromatogramRun.x (run : ChromatogramRun) : List ℚ :=
  run.data.map (fun r => r.1)

/-- src/chromatogram.py lines 148-154: the `y` property, the value column,
normalized when the `NORMALIZE` flag is set. -/
def ChromatogramRun.y (run : ChromatogramRun) : List ℚ :=
  if run.NORMALIZE then normalize (run.data.map (fun r => r.2.2))
  else run.data.map (fun r => r.2.2)

/-- The keyword arguments of `find_peaks` (src/chromatogram.py lines 78-86);
`none` models an argument left at its `None` default. -/
structure FindPeaksArgs where
  normalize : Bool := false
  min_height : Option ℚ := none
  distance : Option Nat := none
  min_width : Option Nat := none
  max_width : Option Nat := none
  relative_height : Option ℚ := none
deriving DecidableEq, Repr

/-- A call of `find_peaks()` with no arguments, as the `elution_volumes`
property makes (src/chromatogram.py line 161). -/
def noArgs : FindPeaksArgs := {}

/-- The Python idiom `arg if arg else dflt` on a float-or-None parameter:
both `None` and `0.0` are falsy, so both select the default. -/
def resolveQ (arg : Option ℚ) (dflt : ℚ) : ℚ :=
  match arg with
  | none => dflt
  | some v => if v = 0 then dflt else v

/-- The Python idiom `arg if arg else dflt` on an int-or-None parameter:
both `None` and `0` are falsy, so both select the default. -/
def resolveN (arg : Option Nat) (dflt : Nat) : Nat :=
  match arg with
  | none => dflt
  | some v => if v = 0 then dflt else v

/-- The values handed to `scipy.signal.find_peaks` (src/chromatogram.py
lines 105-118). `height_k` is the multiplier of the standard deviation in
`height = k * np.std(y) + np.mean(y)` (line 106). -/
structure ScipyCallParams where
  height_k : ℚ
  distance : Nat
  min_width : Nat
  max_width : Nat
  rel_height : ℚ
deriving DecidableEq, Repr

/-- src/chromatogram.py lines 105-110 and 118: the parameter resolution of
`find_peaks`. Each override is selected by truthiness; `rel_height` is taken
from `self.RELATIVE_HEIGHT` on line 118, and the `relative_height` argument
is never read. -/
def resolvedParams (run : ChromatogramRun) (args : FindPeaksArgs) : ScipyCallParams :=
  { height_k := resolveQ args.min_height run.MIN_HEIGHT
    distance := resolveN args.distance run.DISTANCE
    min_width := resolveN args.min_width run.MIN_WIDTH
    max_width := resolveN args.max_width run.MAX_WIDTH
    rel_height := run.RELATIVE_HEIGHT }

/-- `np.mean` of a list. -/
def meanQ (y : List ℚ) : ℚ := y.sum / (y.length : ℚ)

/-- The population variance, the square of `np.std` (ddof 0). -/
def varQ (y : List ℚ) : ℚ :=
  (y.map (fun v => (v - meanQ y)^2)).sum / (y.length : ℚ)

/-- Exact test of `k * sqrt var ≤ d` inside ℚ, avoiding the irrational
square root by sign analysis and squaring; `stdCmpGe_correct` below proves
the encoding right. The height filter `height ≤ y[p]` with
`height = k * std + mean` is exactly this test with `d = y[p] - mean`. -/
def stdCmpGe (k d v : ℚ) : Bool :=
  if 0 ≤ k then decide (0 ≤ d) && decide (k^2 * v ≤ d^2)
  else decide (0 ≤ d) || decide (d^2 ≤ k^2 * v)

/-- Modelled from the spec: step 1 of the detection algorithm (section 4.2),
matching the scipy local-maxima scan. Skip ahead over a plateau of values
equal to `v`, stopping before the last index. The fuel argument
(instantiated with the array length) only makes the recursion structural. -/
def findPlateauEnd (y : List ℚ) (v : ℚ) : Nat → Nat → Nat
  | 0, i => i
  | fuel+1, i =>
    if i + 1 < y.length && y.getD i 0 == v then findPlateauEnd y v fuel (i + 1) else i

/-- Modelled from the spec: step 1 of the detection algorithm (section 4.2).
An index is a candidate apex when the signal rises into it and falls after
it; a plateau is resolved to its midpoint. Mirrors the scipy scan from
index 1 to the second-to-last index. -/
def localMaximaAux (y : List ℚ) : Nat → Nat → List Nat
  | 0, _ => []
  | fuel+1, i =>
    if i + 1 < y.length then
      if y.getD (i - 1) 0 < y.getD i 0 then
        let ia := findPlateauEnd y (y.getD i 0) y.length (i + 1)
        if y.getD ia 0 < y.getD i 0 then
          ((i + (ia - 1)) / 2) :: localMaximaAux y fuel (ia + 1)
        else localMaximaAux y fuel (i + 1)
      else localMaximaAux y fuel (i + 1)
    else []

/-- Modelled from the spec: the candidate apex indices of a signal. -/
def localMaxima (y : List ℚ) : List Nat :=
  localMaximaAux y (y.length + 1) 1

/-- Insert into a list sorted by priority: larger signal value first, ties
broken by smaller index first. -/
def insertByPriority (x : ℚ × Nat) : List (ℚ × Nat) → List (ℚ × Nat)
  | [] => [x]
  | p :: ps =>
    if decide (p.1 < x.1) || (x.1 == p.1 && decide (x.2 ≤ p.2)) then x :: p :: ps
    else p :: insertByPriority x ps

/-- Stable insertion sort by the priority order above. -/
def sortByPriority : List (ℚ × Nat) → List (ℚ × Nat)
  | [] => []
  | p :: ps => insertByPriority p (sortByPriority ps)

/-- Modelled from the spec: step 2 of the detection algorithm (section 4.2).
Visit candidates from the highest value down and keep one only when every
already-kept candidate is at least `dist` samples away. -/
def greedyKeep (dist : Nat) : List (ℚ × Nat) → List Nat → List Nat
  | [], kept => kept
  | p :: rest, kept =>
    if kept.all (fun j => decide (dist ≤ max p.2 j - min p.2 j)) then
      greedyKeep dist rest (p.2 :: kept)
    else greedyKeep dist rest kept

/-- Modelled from the spec: the minimum-spacing filter, returning the
survivors in their original (increasing-index) order. -/
def distanceSelect (y : List ℚ) (dist : Nat) (cands : List Nat) : List Nat :=
  let kept := greedyKeep dist (sortByPriority (cands.map (fun i => (y.getD i 0, i)))) []
  cands.filter (fun i => kept.contains i)

/-- Modelled from the spec: the leftward walk of the prominence computation.
Starting at the apex, descend while the signal stays at or below the apex
value, tracking the running minimum `m`; stop at the array start or at the
first strictly higher sample. Fuel is instantiated with the array length. -/
def promLeftMin (y : List ℚ) (apexVal : ℚ) : Nat → Nat → ℚ → ℚ
  | 0, _, m => m
  | fuel+1, i, m =>
    if i = 0 then m
    else if apexVal < y.getD (i - 1) 0 then m
    else promLeftMin y apexVal fuel (i - 1) (min m (y.getD (i - 1) 0))

/-- Modelled from the spec: the rightward walk of the prominence
computation, symmetric to `promLeftMin`. -/
def promRightMin (y : List ℚ) (apexVal : ℚ) : Nat → Nat → ℚ → ℚ
  | 0, _, m => m
  | fuel+1, i, m =>
    if y.length ≤ i + 1 then m
    else if apexVal < y.getD (i + 1) 0 then m
    else promRightMin y apexVal fuel (i + 1) (min m (y.getD (i + 1) 0))

/-- Modelled from the spec (glossary): prominence is the apex height above
the higher of the two neighboring valley floors. -/
def peakProminence (y : List ℚ) (p : Nat) : ℚ :=
  y.getD p 0 - max (promLeftMin y (y.getD p 0) y.length p (y.getD p 0))
    (promRightMin y (y.getD p 0) y.length p (y.getD p 0))

/-- Modelled from the spec: step 4 of the detection algorithm (section 4.2).
Descend leftward from the apex until the signal crosses `level`, then
linear-interpolate between the bracketing samples; a walk that runs off the
array is clamped to index 0. Fuel is instantiated with the array length. -/
def widthLeft (y : List ℚ) (level : ℚ) : Nat → Nat → ℚ
  | 0, i => (i : ℚ)
  | fuel+1, i =>
    if i = 0 then 0
    else if y.getD (i - 1) 0 < level then
      ((i : ℚ) - 1) + (level - y.getD (i - 1) 0) / (y.getD i 0 - y.getD (i - 1) 0)
    else widthLeft y level fuel (i - 1)

/-- Modelled from the spec: the rightward half of step 4, clamped to the
last index. -/
def widthRight (y : List ℚ) (level : ℚ) : Nat → Nat → ℚ
  | 0, i => (i : ℚ)
  | fuel+1, i =>
    if y.length ≤ i + 1 then (i : ℚ)
    else if y.getD (i + 1) 0 < level then
      ((i : ℚ) + 1) - (level - y.getD (i + 1) 0) / (y.getD i 0 - y.getD (i + 1) 0)
    else widthRight y level fuel (i + 1)

/-- One detected peak as scipy reports it: the apex index and the fractional
interpolated boundary positions `left_ips` / `right_ips`. -/
structure ScipyPeak where
  idx : Nat
  left_ip : ℚ
  right_ip : ℚ
deriving DecidableEq, Repr

/-- The horizontal crossing level for boundary computation: `rel` fraction of
the prominence below the apex value (spec section 4.2, step 4). -/
def peakWidthLevel (y : List ℚ) (rel : ℚ) (p : Nat) : ℚ :=
  y.getD p 0 - rel * peakProminence y p

/-- The boundary positions of a candidate apex at `relative_height` fraction
of its prominence below the apex (spec section 4.2, step 4). -/
def mkScipyPeak (y : List ℚ) (rel : ℚ) (p : Nat) : ScipyPeak :=
  { idx := p
    left_ip := widthLeft y (peakWidthLevel y rel p) y.length p
    right_ip := widthRight y (peakWidthLevel y rel p) y.length p }

/-- Modelled from the spec: `scipy.signal.find_peaks` (external library, not
in src/) as specified in section 4.2: local maxima, minimum-spacing filter,
height filter against `k * std + mean` (the height mode the repository
uses), boundary positions at `rel` fraction of prominence, and the width
filter `min_width ≤ right_ips - left_ips ≤ max_width`. -/
def scipyFindPeaks (y : List ℚ) (k : ℚ) (dist minw maxw : Nat) (rel : ℚ) : List ScipyPeak :=
  let cands0 := localMaxima y
  let cands1 := distanceSelect y dist cands0
  let cands2 := cands1.filter (fun p => stdCmpGe k (y.getD p 0 - meanQ y) (varQ y))
  let widths := cands2.map (mkScipyPeak y rel)
  widths.filter (fun sp =>
    decide ((minw : ℚ) ≤ sp.right_ip - sp.left_ip) &&
    decide (sp.right_ip - sp.left_ip ≤ (maxw : ℚ)))

/-! ### src/peak.py: the `Peak` class -/

/-- Python slice `l[a:b]`, clamping out-of-range bounds. -/
def pySlice (l : List ℚ) (a b : Nat) : List ℚ := (l.drop a).take (b - a)

/-- The fields a `Peak` instance holds after `__init__` (src/peak.py lines
27-34). -/
structure Peak where
  index : Nat
  time : ℚ
  left_threshold : ℚ
  right_threshold : ℚ
  height : ℚ
  times : List ℚ
  values : List ℚ
  area : ℚ
deriving DecidableEq, Repr

/-- src/peak.py lines 11-34, the body of `Peak.__init__` given its five
parameters. `area` is `integrate(times, values)` with the default `simpson`
method, which `integrate` returns as `Except.ok (simpson times values)`. -/
def Peak.init (index left_threshold_index right_threshold_index : Nat)
    (x_data y_data : List ℚ) : Peak :=
  { index := index
    time := x_data.getD index 0
    left_threshold := x_data.getD left_threshold_index 0
    right_threshold := x_data.getD right_threshold_index 0
    height := y_data.getD index 0
    times := pySlice x_data left_threshold_index (right_threshold_index + 1)
    values := pySlice y_data left_threshold_index (right_threshold_index + 1)
    area := simpson (pySlice x_data left_threshold_index (right_threshold_index + 1))
        (pySlice y_data left_threshold_index (right_threshold_index + 1)) }

/-- The parameter names `Peak.__init__` declares (src/peak.py lines 11-18);
none of them has a default value. -/
def peakInitParamNames : List String :=
  ["index", "left_threshold_index", "right_threshold_index", "x_data", "y_data"]

/-- The keyword names `ChromatogramRun.find_peaks` passes when constructing
a `Peak` (src/chromatogram.py lines 126-136). -/
def findPeaksCallKwargNames : List String :=
  ["index", "time", "left_threshold", "right_threshold", "left_threshold_index",
   "right_threshold_index", "height", "x_data", "y_data"]

/-- A Python keyword call succeeds only when every passed keyword is a
declared parameter and every parameter without a default receives a value;
otherwise the call raises TypeError before the body runs. -/
def peakCallValid : Bool :=
  findPeaksCallKwargNames.all (fun kw => peakInitParamNames.contains kw) &&
  peakInitParamNames.all (fun pn => findPeaksCallKwargNames.contains pn)

/-- src/chromatogram.py lines 122-139: the loop converting scipy peaks to
`Peak` instances. Each iteration rounds `left_ips` / `right_ips` to the
boundary indices (lines 124-125) and then calls `Peak(...)` with the keyword
set of lines 126-136; an invalid keyword set raises TypeError at the first
construction. The returned tuples carry what the loop computes before the
call: the apex index and the two rounded boundary indices. -/
def buildPeaksList : List ScipyPeak → Except PyError (List (Nat × ℤ × ℤ))
  | [] => Except.ok []
  | sp :: rest =>
    if peakCallValid then
      match buildPeaksList rest with
      | Except.ok tail => Except.ok ((sp.idx, pyRound sp.left_ip, pyRound sp.right_ip) :: tail)
      | Except.error e => Except.error e
    else Except.error PyError.typeError

/-- src/chromatogram.py line 103: `if normalize: self.NORMALIZE = normalize`.
The only instance state `find_peaks` writes. -/
def findPeaksState (run : ChromatogramRun) (args : FindPeaksArgs) : ChromatogramRun :=
  if args.normalize then { run with NORMALIZE := true } else run

/-- The peaks the scipy call inside `find_peaks` reports for this run and
these arguments (src/chromatogram.py lines 113-119), after the `NORMALIZE`
update and the parameter resolution. -/
def ChromatogramRun.detected (run : ChromatogramRun) (args : FindPeaksArgs) : List ScipyPeak :=
  let run1 := findPeaksState run args
  let prm := resolvedParams run1 args
  scipyFindPeaks run1.y prm.height_k prm.distance prm.min_width prm.max_width prm.rel_height

/-- src/chromatogram.py lines 78-139, `find_peaks`: returns the result (or
the exception) together with the updated object state. -/
def ChromatogramRun.find_peaks (run : ChromatogramRun) (args : FindPeaksArgs) :
    Except PyError (List (Nat × ℤ × ℤ)) × ChromatogramRun :=
  (buildPeaksList (run.detected args), findPeaksState run args)

/-- src/chromatogram.py lines 156-163, the `elution_volumes` property: it
calls `self.find_peaks()` afresh with every argument at its default, then
evaluates `peak.integrate()` on each returned peak. `Peak` defines no
`integrate` method (src/peak.py), so a nonempty list would raise
AttributeError; that branch is unreachable because `find_peaks` already
raised. -/
def ChromatogramRun.elution_volumes (run : ChromatogramRun) : Except PyError (List ℚ) :=
  match (run.find_peaks noArgs).1 with
  | Except.error e => Except.error e
  | Except.ok peaks =>
    match peaks with
    | [] => Except.ok []
    | _ :: _ => Except.error PyError.attributeError

/-- src/chromatogram.py lines 165-170, the `total_elution_volume` property:
`sum(self.elution_volumes)`. -/
def ChromatogramRun.total_elution_volume (run : ChromatogramRun) : Except PyError ℚ :=
  match run.elution_volumes with
  | Except.ok vols => Except.ok vols.sum
  | Except.error e => Except.error e

/-! ### Concrete runs used as witnesses -/

/-- A parsed data table holding a single triangular peak: 25 samples, apex
value 12 at index 12, descending linearly to 0 at both ends. With the
default parameters the detection pipeline finds exactly this peak. -/
def triangleData : List (ℚ × ℚ × ℚ) :=
  (List.range 25).map (fun i => ((i : ℚ), 0, 12 - |(i : ℚ) - 12|))

/-- A freshly constructed run over `triangleData`, all defaults in place. -/
def triangleRun : ChromatogramRun := { data := triangleData }

/-- A freshly constructed run over a constant signal: no local maxima, so
detection finds nothing. -/
def flatRun : ChromatogramRun :=
  { data := (List.range 25).map (fun i => ((i : ℚ), 0, 5)) }

/-! ### Helper lemmas about `pyRound` and `listMin` -/

theorem pyRound_le_of_le_int (q : ℚ) (m : ℤ) (h : q ≤ (m : ℚ)) : pyRound q ≤ m := by
  have hfl : ⌊q⌋ ≤ m := by
    have h2 : (⌊q⌋ : ℚ) ≤ (m : ℚ) := le_trans (Int.floor_le q) h
    exact_mod_cast h2
  have hstep : ¬ (q - (⌊q⌋ : ℚ) < 1/2) → ⌊q⌋ + 1 ≤ m := by
    intro h1
    have h2 : (1:ℚ)/2 ≤ q - (⌊q⌋ : ℚ) := le_of_not_lt h1
    have hpos : (⌊q⌋ : ℚ) < q := by linarith
    have h3 : (⌊q⌋ : ℚ) < (m : ℚ) := lt_of_lt_of_le hpos h
    have h4 : ⌊q⌋ < m := by exact_mod_cast h3
    omega
  unfold pyRound
  split
  · exact hfl
  · next h1 =>
    split
    · exact hstep h1
    · split
      · exact hfl
      · exact hstep h1

theorem int_le_pyRound (q : ℚ) (m : ℤ) (h : (m : ℚ) ≤ q) : m ≤ pyRound q := by
  have hfl : m ≤ ⌊q⌋ := Int.le_floor.mpr h
  unfold pyRound
  split
  · exact hfl
  · split
    · omega
    · split
      · exact hfl
      · omega

theorem listMin_cons (x : ℚ) (xs : List ℚ) : listMin (x :: xs) = xs.foldl min x := rfl

theorem listMin_foldl_map_sub (xs : List ℚ) (a c : ℚ) :
    (xs.map (fun v => v - c)).foldl min (a - c) = xs.foldl min a - c := by
  induction xs generalizing a with
  | nil => simp
  | cons y t ih =>
    simp only [List.map_cons, List.foldl_cons]
    have hmin : min (a - c) (y - c) = min a y - c := by
      rcases le_total a y with hle | hle
      · rw [min_eq_left hle, min_eq_left (by linarith)]
      · rw [min_eq_right hle, min_eq_right (by linarith)]
    rw [hmin, ih]

theorem listMin_normalize (values : List ℚ) (h : values ≠ []) :
    listMin (normalize values) = 0 := by
  cases values with
  | nil => exact absurd rfl h
  | cons x xs =>
    have hsplit : normalize (x :: xs) =
        (x - listMin (x :: xs)) :: xs.map (fun v => v - listMin (x :: xs)) := rfl
    rw [hsplit, listMin_cons, listMin_foldl_map_sub xs x (listMin (x :: xs)), listMin_cons]
    exact sub_self _

/-! ### Soundness of the square-root-free height comparison -/

theorem stdCmpGe_correct (k d s : ℚ) (hs : 0 ≤ s) :
    stdCmpGe k d (s^2) = true ↔ k * s ≤ d := by
  unfold stdCmpGe
  by_cases hk : 0 ≤ k
  · simp only [if_pos hk, Bool.and_eq_true, decide_eq_true_eq]
    constructor
    · rintro ⟨hd, hsq⟩
      nlinarith
    · intro h
      have hks : 0 ≤ k * s := mul_nonneg hk hs
      constructor
      · linarith
      · nlinarith
  · simp only [if_neg hk, Bool.or_eq_true, decide_eq_true_eq]
    have hk' : k < 0 := lt_of_not_le hk
    have hks : k * s ≤ 0 := mul_nonpos_of_nonpos_of_nonneg (le_of_lt hk') hs
    constructor
    · rintro (hd | hsq)
      · linarith
      · by_cases hd : 0 ≤ d
        · linarith
        · nlinarith
    · intro h
      by_cases hd : 0 ≤ d
      · exact Or.inl hd
      · right
        nlinarith

/-! ### Invariants of the prominence and width walks -/

theorem promLeftMin_le (y : List ℚ) (a : ℚ) :
    ∀ (fuel i : Nat) (m : ℚ), promLeftMin y a fuel i m ≤ m := by
  intro fuel
  induction fuel with
  | zero => intro i m; simp [promLeftMin]
  | succ n ih =>
    intro i m
    simp only [promLeftMin]
    split
    · exact le_refl m
    · split
      · exact le_refl m
      · exact le_trans (ih (i - 1) _) (min_le_left _ _)

theorem promRightMin_le (y : List ℚ) (a : ℚ) :
    ∀ (fuel i : Nat) (m : ℚ), promRightMin y a fuel i m ≤ m := by
  intro fuel
  induction fuel with
  | zero => intro i m; simp [promRightMin]
  | succ n ih =>
    intro i m
    simp only [promRightMin]
    split
    · exact le_refl m
    · split
      · exact le_refl m
      · exact le_trans (ih (i + 1) _) (min_le_left _ _)

theorem peakProminence_nonneg (y : List ℚ) (p : Nat) : 0 ≤ peakProminence y p := by
  unfold peakProminence
  have h1 := promLeftMin_le y (y.getD p 0) y.length p (y.getD p 0)
  have h2 := promRightMin_le y (y.getD p 0) y.length p (y.getD p 0)
  have h3 := max_le h1 h2
  linarith

theorem peakWidthLevel_le (y : List ℚ) (rel : ℚ) (p : Nat) (hrel : 0 ≤ rel) :
    peakWidthLevel y rel p ≤ y.getD p 0 := by
  unfold peakWidthLevel
  have := mul_nonneg hrel (peakProminence_nonneg y p)
  linarith

theorem widthLeft_le (y : List ℚ) (level : ℚ) :
    ∀ (fuel i : Nat), level ≤ y.getD i 0 → widthLeft y level fuel i ≤ (i : ℚ) := by
  intro fuel
  induction fuel with
  | zero => intro i _; simp [widthLeft]
  | succ n ih =>
    intro i h
    simp only [widthLeft]
    split
    · next h0 => subst h0; simp
    · next h0 =>
      split
      · next hlt =>
        have hpos : (0:ℚ) < y.getD i 0 - y.getD (i - 1) 0 := by linarith
        have hfrac : (level - y.getD (i - 1) 0) / (y.getD i 0 - y.getD (i - 1) 0) ≤ 1 := by
          rw [div_le_one hpos]
          linarith
        linarith
      · next hge =>
        have h2 : level ≤ y.getD (i - 1) 0 := le_of_not_lt hge
        have h3 := ih (i - 1) h2
        have h4 : ((i - 1 : Nat) : ℚ) ≤ (i : ℚ) := by
          exact_mod_cast Nat.sub_le i 1
        linarith

theorem widthRight_ge (y : List ℚ) (level : ℚ) :
    ∀ (fuel i : Nat), level ≤ y.getD i 0 → (i : ℚ) ≤ widthRight y level fuel i := by
  intro fuel
  induction fuel with
  | zero => intro i _; simp [widthRight]
  | succ n ih =>
    intro i h
    simp only [widthRight]
    split
    · exact le_refl _
    · split
      · next hlt =>
        have hpos : (0:ℚ) < y.getD i 0 - y.getD (i + 1) 0 := by linarith
        have hfrac : (level - y.getD (i + 1) 0) / (y.getD i 0 - y.getD (i + 1) 0) ≤ 1 := by
          rw [div_le_one hpos]
          linarith
        have hcast : ((i : ℚ) + 1) = ((i + 1 : Nat) : ℚ) := by push_cast; ring
        linarith
      · next hge =>
        have h2 : level ≤ y.getD (i + 1) 0 := le_of_not_lt hge
        have h3 := ih (i + 1) h2
        have h4 : (i : ℚ) ≤ ((i + 1 : Nat) : ℚ) := by push_cast; linarith
        linarith

theorem mkScipyPeak_left_le (y : List ℚ) (rel : ℚ) (p : Nat) (hrel : 0 ≤ rel) :
    (mkScipyPeak y rel p).left_ip ≤ (p : ℚ) :=
  widthLeft_le y (peakWidthLevel y rel p) y.length p (peakWidthLevel_le y rel p hrel)

theorem mkScipyPeak_right_ge (y : List ℚ) (rel : ℚ) (p : Nat) (hrel : 0 ≤ rel) :
    (p : ℚ) ≤ (mkScipyPeak y rel p).right_ip :=
  widthRight_ge y (peakWidthLevel y rel p) y.length p (peakWidthLevel_le y rel p hrel)

theorem mem_scipyFindPeaks (y : List ℚ) (k : ℚ) (dist minw maxw : Nat) (rel : ℚ)
    (sp : ScipyPeak) (hsp : sp ∈ scipyFindPeaks y k dist minw maxw rel) :
    ∃ p : Nat, sp = mkScipyPeak y rel p := by
  unfold scipyFindPeaks at hsp
  have h1 := List.mem_filter.mp hsp
  have h2 := List.mem_map.mp h1.1
  obtain ⟨p, _, hp⟩ := h2
  exact ⟨p, hp.symm⟩

theorem normalize_length (values : List ℚ) : (normalize values).length = values.length := by
  unfold normalize
  exact List.length_map _ _

theorem normalize_getD (values : List ℚ) (n : Nat) (hn : n < values.length) :
    (normalize values).getD n 0 = values.getD n 0 - listMin values := by
  have hn2 : n < (normalize values).length := by rw [normalize_length]; exact hn
  rw [List.getD_eq_getElem _ _ hn2, List.getD_eq_getElem _ _ hn]
  simp [normalize]

theorem parseColumns_none_of_bad_field (t s v : List Char)
    (h : pyFloat? (replList naPat zeroRep s.length s) = none ∨ pyFloat? t = none ∨
      pyFloat? v = none) :
    parseColumns [t, s, v] = none := by
  show (match pyFloat? (replList naPat zeroRep s.length s), pyFloat? t, pyFloat? v with
    | some sq, some tq, some vq => some (tq, sq, vq)
    | _, _, _ => none) = none
  rcases hs : pyFloat? (replList naPat zeroRep s.length s) with _ | sq <;>
    rcases htq : pyFloat? t with _ | tq <;>
      rcases hvq : pyFloat? v with _ | vq <;>
        simp_all

set_option maxRecDepth 8192

/-! ### The claims -/

/-- Claim C1 (confirmed): the keyword set passed at the `Peak(...)` call of
`find_peaks` is not the parameter set of `Peak.__init__` (`time` is one of
the extra keywords), so whenever detection identifies at least one candidate
peak the call raises TypeError at the first construction, and `find_peaks`
returns normally (with the empty list) exactly when zero peaks are found. -/
theorem find_peaks_fails_iff_peaks_found :
    (∃ kw, kw ∈ findPeaksCallKwargNames ∧ ¬ kw ∈ peakInitParamNames) ∧
    ∀ (run : ChromatogramRun) (args : FindPeaksArgs),
      (run.detected args ≠ [] → (run.find_peaks args).1 = Except.error PyError.typeError) ∧
      (run.detected args = [] → (run.find_peaks args).1 = Except.ok []) := by
  constructor
  · exact ⟨"time", by decide, by decide⟩
  · intro run args
    have hv : peakCallValid = false := rfl
    constructor
    · intro h
      cases hd : run.detected args with
      | nil => exact absurd hd h
      | cons sp rest =>
        show buildPeaksList (run.detected args) = _
        rw [hd]
        simp [buildPeaksList, hv]
    · intro h
      show buildPeaksList (run.detected args) = _
      rw [h]
      rfl

/-- Witness for C1: the triangle run detects a peak and its `find_peaks`
call raises TypeError. -/
theorem find_peaks_fails_iff_peaks_found_witness :
    (triangleRun.find_peaks noArgs).1 = Except.error PyError.typeError :=
  (find_peaks_fails_iff_peaks_found.2 triangleRun noArgs).1 (by with_unfolding_all decide)

/-- Claim C2 concerns a code bug: constructing a run on a missing file is
not fatal in the code. `__init__` catches FileNotFoundError, prints a
message and returns normally (src/chromatogram.py lines 41-43), so the
caller receives a constructed object whose `metadata` and `data` attributes
were never assigned, exactly the swallowed legacy behaviour the spec calls
a bug to avoid. -/
theorem missing_file_error_swallowed :
    chromatogram_run_init none = Except.ok { metadata := none, data := none } := rfl

/-- Claim C3 concerns a code bug: `find_peaks` hands `self.RELATIVE_HEIGHT`
to the scipy call (src/chromatogram.py line 118) and never reads its
`relative_height` argument, so the boundary computation is identical for
any two calls that differ only in that argument, contradicting both the
spec and the docstring of `find_peaks`. -/
theorem relative_height_argument_ignored :
    ∀ (run : ChromatogramRun) (args : FindPeaksArgs) (r1 r2 : Option ℚ),
      (resolvedParams run args).rel_height = run.RELATIVE_HEIGHT ∧
      run.find_peaks { args with relative_height := r1 } =
        run.find_peaks { args with relative_height := r2 } := by
  intro run args r1 r2
  exact ⟨rfl, rfl⟩

/-- Claim C4 (confirmed): for every nonempty value list, `normalize` keeps
the length, the minimum of the result is exactly 0, and every pairwise
difference is preserved (each entry is the original minus the minimum of
the whole list); the input is untouched, since the source builds a fresh
array and the embedding is pure. -/
theorem normalize_shift_properties :
    ∀ values : List ℚ, values ≠ [] →
      (normalize values).length = values.length ∧
      listMin (normalize values) = 0 ∧
      ∀ i j : Nat, i < values.length → j < values.length →
        (normalize values).getD i 0 - (normalize values).getD j 0 =
          values.getD i 0 - values.getD j 0 := by
  intro values h
  refine ⟨normalize_length values, listMin_normalize values h, ?_⟩
  intro i j hi hj
  rw [normalize_getD values i hi, normalize_getD values j hj]
  ring

/-- Witness for C4 at the concrete list [3, 1, 2]. -/
theorem normalize_shift_properties_witness :
    (normalize [3, 1, 2]).length = ([3, 1, 2] : List ℚ).length ∧
    listMin (normalize [3, 1, 2]) = 0 ∧
    (normalize [3, 1, 2]).getD 0 0 - (normalize [3, 1, 2]).getD 2 0 =
      ([3, 1, 2] : List ℚ).getD 0 0 - ([3, 1, 2] : List ℚ).getD 2 0 := by
  have h := normalize_shift_properties [3, 1, 2] (by decide)
  exact ⟨h.1, h.2.1, h.2.2 0 2 (by decide) (by decide)⟩

/-- Counterexample to claim C5 as stated: `triangleRun` models a freshly
constructed run on which no detection call has ever been made, yet
`total_elution_volume` is a TypeError, not 0, because the property re-runs
detection (which finds a peak and crashes constructing it) instead of
consulting a stored peak list. -/
theorem total_elution_volume_not_stored_counterexample :
    triangleRun.total_elution_volume = Except.error PyError.typeError ∧
    triangleRun.total_elution_volume ≠ Except.ok 0 := by
  with_unfolding_all decide

/-- Amended claim C5: the elution-volume properties read no stored peak list
(none exists); every access re-runs `find_peaks` with all arguments at
their defaults, so `elution_volumes` is `[]` and `total_elution_volume` is
`0` exactly when that fresh default detection finds no peaks — whether or
not any detection was called before — and both raise the `find_peaks`
TypeError whenever it finds any. -/
theorem elution_volumes_recomputed_each_access :
    ∀ run : ChromatogramRun,
      (run.detected noArgs = [] →
        run.elution_volumes = Except.ok [] ∧ run.total_elution_volume = Except.ok 0) ∧
      (run.detected noArgs ≠ [] →
        run.elution_volumes = Except.error PyError.typeError ∧
        run.total_elution_volume = Except.error PyError.typeError) := by
  intro run
  have hv : peakCallValid = false := rfl
  constructor
  · intro h
    have h1 : run.elution_volumes = Except.ok [] := by
      unfold ChromatogramRun.elution_volumes ChromatogramRun.find_peaks
      rw [h]
      rfl
    refine ⟨h1, ?_⟩
    unfold ChromatogramRun.total_elution_volume
    rw [h1]
    rfl
  · intro h
    obtain ⟨sp, rest, hd⟩ : ∃ sp rest, run.detected noArgs = sp :: rest := by
      cases hcase : run.detected noArgs with
      | nil => exact absurd hcase h
      | cons a l => exact ⟨a, l, rfl⟩
    have h1 : run.elution_volumes = Except.error PyError.typeError := by
      unfold ChromatogramRun.elution_volumes ChromatogramRun.find_peaks
      rw [hd]
      simp [buildPeaksList, hv]
    refine ⟨h1, ?_⟩
    unfold ChromatogramRun.total_elution_volume
    rw [h1]

/-- Witness for amended C5: the flat run (no peaks) totals 0, the triangle
run (one peak) raises TypeError. -/
theorem elution_volumes_recomputed_each_access_witness :
    flatRun.total_elution_volume = Except.ok 0 ∧
    triangleRun.total_elution_volume = Except.error PyError.typeError := by
  constructor
  · exact ((elution_volumes_recomputed_each_access flatRun).1 (by with_unfolding_all decide)).2
  · exact ((elution_volumes_recomputed_each_access triangleRun).2 (by with_unfolding_all decide)).2

/-- Counterexample to claim C6 as stated: a data row whose time field is the
sentinel `n.a.` is skipped, not kept with time 0.0; the substitution is
applied to the step field only, as the second conjunct shows. -/
theorem na_sentinel_time_field_counterexample :
    parseRowLine "n.a.\t1.0\t2.0".toList = none ∧
    parseRowLine "1.0\tn.a.\t2.0".toList = some (1, 0, 2) := by
  with_unfolding_all decide

/-- Amended claim C6: the `n.a.` sentinel is honoured only in the step
field. With parsable time and value fields, a step of `n.a.` becomes 0.0
and the row is kept; an `n.a.` in the time field or in the value field
leaves the row non-numeric and it is skipped — as is, in general, any row
in which a field stays non-numeric after the step-only substitution, and
any row without exactly 3 tab-separated fields; every failure is a per-row
skip (`none`), never fatal. -/
theorem na_sentinel_step_field_only :
    ∀ (time step value : List Char) (qt qv : ℚ),
      pyFloat? time = some qt → pyFloat? value = some qv →
      (parseColumns [time, naPat, value] = some (qt, 0, qv) ∧
       parseColumns [naPat, step, value] = none ∧
       parseColumns [time, step, naPat] = none ∧
       (∀ t s v : List Char,
         pyFloat? (replList naPat zeroRep s.length s) = none ∨ pyFloat? t = none ∨
           pyFloat? v = none →
         parseColumns [t, s, v] = none) ∧
       ∀ columns : List (List Char), columns.length ≠ 3 → parseColumns columns = none) := by
  intro time step value qt qv ht hv
  have hstep : pyFloat? (replList naPat zeroRep naPat.length naPat) = some 0 := by
    with_unfolding_all decide
  have hna : pyFloat? naPat = none := by with_unfolding_all decide
  refine ⟨?_, ?_, ?_, ?_, ?_⟩
  · show (match pyFloat? (replList naPat zeroRep naPat.length naPat), pyFloat? time,
        pyFloat? value with
      | some s, some t, some v => some (t, s, v)
      | _, _, _ => none) = some (qt, 0, qv)
    rw [hstep, ht, hv]
  · exact parseColumns_none_of_bad_field naPat step value (Or.inr (Or.inl hna))
  · exact parseColumns_none_of_bad_field time step naPat (Or.inr (Or.inr hna))
  · intro t s v h
    exact parseColumns_none_of_bad_field t s v h
  · intro columns hlen
    rcases columns with _ | ⟨a, _ | ⟨b, _ | ⟨c, _ | ⟨d, rest⟩⟩⟩⟩
    · rfl
    · rfl
    · rfl
    · exact absurd rfl hlen
    · rfl

/-- Witness for amended C6 at concrete fields: the step sentinel is kept as
0.0, the same sentinel in the time field or in the value field skips the
row. -/
theorem na_sentinel_step_field_only_witness :
    parseColumns [['1'], naPat, ['2']] = some (1, 0, 2) ∧
    parseColumns [naPat, ['9'], ['2']] = none ∧
    parseColumns [['1'], ['9'], naPat] = none := by
  have h := na_sentinel_step_field_only ['1'] ['9'] ['2'] 1 2
    (by with_unfolding_all decide) (by with_unfolding_all decide)
  exact ⟨h.1, h.2.1, h.2.2.1⟩

/-- Claim C7 (confirmed): every peak the detection pipeline reports has its
rounded boundary indices bracketing the apex,
`left_threshold_index ≤ apex index ≤ right_threshold_index`, for any
nonnegative relative height (the code always uses 0.95). -/
theorem boundary_indices_bracket_apex :
    ∀ (y : List ℚ) (k : ℚ) (dist minw maxw : Nat) (rel : ℚ), 0 ≤ rel →
      ∀ sp ∈ scipyFindPeaks y k dist minw maxw rel,
        pyRound sp.left_ip ≤ (sp.idx : ℤ) ∧ (sp.idx : ℤ) ≤ pyRound sp.right_ip := by
  intro y k dist minw maxw rel hrel sp hsp
  obtain ⟨p, rfl⟩ := mem_scipyFindPeaks y k dist minw maxw rel sp hsp
  constructor
  · apply pyRound_le_of_le_int
    have h := mkScipyPeak_left_le y rel p hrel
    exact_mod_cast h
  · apply int_le_pyRound
    have h := mkScipyPeak_right_ge y rel p hrel
    exact_mod_cast h

/-- Witness for C7: the one peak detected on the triangle run has boundary
indices 1 and 23 around apex 12. -/
theorem boundary_indices_bracket_apex_witness :
    pyRound (mkScipyPeak triangleRun.y (95/100) 12).left_ip ≤ (12 : ℤ) ∧
    (12 : ℤ) ≤ pyRound (mkScipyPeak triangleRun.y (95/100) 12).right_ip :=
  boundary_indices_bracket_apex triangleRun.y (15/100) 75 10 1000 (95/100)
    (by norm_num) (mkScipyPeak triangleRun.y (95/100) 12) (by with_unfolding_all decide)

/-- Claim C8 (confirmed): a detection call rewrites none of the stored
default parameters and none of the data; the entire state change is
`NORMALIZE := NORMALIZE || normalize` — set when the call passes
normalize=true, and never reset by a later call passing normalize=false. -/
theorem find_peaks_mutates_only_normalize :
    ∀ (run : ChromatogramRun) (args : FindPeaksArgs),
      (run.find_peaks args).2 = { run with NORMALIZE := run.NORMALIZE || args.normalize } := by
  intro run args
  show findPeaksState run args = _
  unfold findPeaksState
  cases hn : args.normalize <;> simp [hn]

/-- Claim C9 (confirmed): `integrate` raises ValueError exactly when the
method is not `simpson`, and for `simpson` returns the composite Simpson
area with no fallback and no exception. -/
theorem integrate_rejects_unknown_method :
    ∀ (x_data y_data : List ℚ) (method : String),
      (method = "simpson" →
        integrate x_data y_data method = Except.ok (simpson x_data y_data)) ∧
      (method ≠ "simpson" →
        integrate x_data y_data method =
          Except.error (PyError.valueError ("Unsupported integration method: " ++ method))) := by
  intro x y m
  constructor
  · intro h
    simp [integrate, h]
  · intro h
    simp [integrate, h]

/-- Witness for C9 with the methods `simpson` and `trapezoid`. -/
theorem integrate_rejects_unknown_method_witness :
    integrate [0, 1] [1, 1] "simpson" = Except.ok (simpson [0, 1] [1, 1]) ∧
    integrate [0, 1] [1, 1] "trapezoid" =
      Except.error (PyError.valueError ("Unsupported integration method: " ++ "trapezoid")) := by
  constructor
  · exact (integrate_rejects_unknown_method [0, 1] [1, 1] "simpson").1 rfl
  · exact (integrate_rejects_unknown_method [0, 1] [1, 1] "trapezoid").2 (by decide)

/-- Claim C10 (confirmed): passing zero for min_height, distance, min_width
or max_width selects the class default, exactly as passing nothing does,
because the overrides are chosen by truthiness; so no call can install a
zero height multiplier or zero width bound unless the default itself is
zero. -/
theorem zero_arguments_select_defaults :
    ∀ run : ChromatogramRun,
      resolvedParams run
          { min_height := some 0, distance := some 0, min_width := some 0,
            max_width := some 0 } =
        resolvedParams run noArgs ∧
      resolvedParams run noArgs =
        { height_k := run.MIN_HEIGHT, distance := run.DISTANCE, min_width := run.MIN_WIDTH,
          max_width := run.MAX_WIDTH, rel_height := run.RELATIVE_HEIGHT } := by
  intro run
  exact ⟨rfl, rfl⟩

end Chrom
